import Mathlib

/-!
# InspectionHub — verification of the incremental harvesting core

Shallow embedding of `src/api_scraper.py` (class `ApiScraper`): endpoint
discovery with a static fallback, a windowed fetch with one program-filter
retry, inline record normalization, and a novelty store (MySQL tables
`restaurants` and `inspections`) with upsert-entity / insert-event-if-new
semantics, driven by the per-source loop in `ApiScraper.run`.

Network and database effects are modelled by explicit oracles (the fetch
oracle maps a request's `programName` to a transport result; the discovery
oracle yields the parsed anchor list or a caught error) and by explicit
state passing of the relational store.
-/

/-- Category value of the raw `permitType` field: the provider returns either
a single string or a list of strings (duck-typed in the Python source). -/
inductive CatVal where
  | strv (s : String)
  | listv (l : List String)
  deriving Repr, DecidableEq

/-- Raw provider record as consumed by `ApiScraper.run` (`record.get(...)`
calls at src/api_scraper.py lines 127-148). `none` models an absent field. -/
structure RawRecord where
  permitID : Option String
  establishmentName : Option String
  addressLine1 : Option String
  permitType : Option CatVal
  inspectionDate : Option String
  score : Option Int
  purpose : Option String
  deriving Repr, DecidableEq

/-- Normalized record: the cleaned fields computed in the body of the
per-record loop of `ApiScraper.run` before the store operations. -/
structure NormRec where
  establishment_id : String
  path : String
  name : String
  address : String
  category : String
  date : String
  score : Int
  purpose : String
  deriving Repr, DecidableEq

/-- Row of the `restaurants` table (primary key `(establishment_id, path)`). -/
structure RestaurantRow where
  establishment_id : String
  path : String
  name : String
  address : String
  category : String
  deriving Repr, DecidableEq

/-- Row of the `inspections` table (auto id omitted; the natural key used for
novelty detection is `(establishment_id, establishment_path, inspection_date,
score)`). -/
structure InspectionRow where
  establishment_id : String
  establishment_path : String
  inspection_date : String
  score : Int
  purpose : String
  deriving Repr, DecidableEq

/-- The relational store visible to the scraper: the two tables it writes. -/
structure Store where
  restaurants : List RestaurantRow
  inspections : List InspectionRow
  deriving Repr, DecidableEq

/-- Empty store (both tables empty). -/
def emptyStore : Store := ⟨[], []⟩

/-- Python `str.strip()`: remove leading and trailing whitespace. -/
def pyStrip (s : String) : String :=
  String.mk (((s.data.dropWhile Char.isWhitespace).reverse.dropWhile Char.isWhitespace).reverse)

/-- Python `s.split('T')[0]`: the part of the string before the first `T`
(the whole string when no `T` occurs; empty input yields empty output). -/
def pySplitHeadT (s : String) : String :=
  String.mk (s.data.takeWhile fun c => c != 'T')

/-- Python `s.startswith(pre)`. -/
def pyStartsWith (s pre : String) : Bool :=
  pre.data.isPrefixOf s.data

/-- Does `pat` occur as a contiguous run inside `s` (helper for Python's
substring containment test)? -/
def containsSub : List Char → List Char → Bool
  | s, pat =>
    match s with
    | [] => pat.isEmpty
    | _ :: rest => pat.isPrefixOf s || containsSub rest pat

/-- Python substring containment `pat in s`. -/
def pyContains (s pat : String) : Bool :=
  containsSub s.data pat.data

/-- Flatten the raw `permitType` value exactly as src/api_scraper.py lines
135-139: a list is joined with a comma-space and then stripped; any other
value is stringified and stripped; an absent field defaults to the empty
string (stringified and stripped, which leaves it empty). -/
def flattenCategory : Option CatVal → String
  | none => ""
  | some (.strv s) => pyStrip s
  | some (.listv l) => pyStrip (String.intercalate ", " l)

/-- Normalization pipeline of `ApiScraper.run` (src/api_scraper.py lines
127-148): reject on a falsy `permitID`; strip name (default `N/A`) and
address (default empty); flatten the category; keep the date portion before
the first `T` of `inspectionDate` (default empty); reject when `score` is
absent or exactly zero; strip purpose (default empty). -/
def normalizeRecord (path : String) (r : RawRecord) : Option NormRec :=
  match r.permitID with
  | none => none
  | some eid =>
    if eid = "" then none
    else
      let name := pyStrip (r.establishmentName.getD "N/A")
      let address := pyStrip (r.addressLine1.getD "")
      let category := flattenCategory r.permitType
      let date := pySplitHeadT (r.inspectionDate.getD "")
      match r.score with
      | none => none
      | some sc =>
        if sc = 0 then none
        else
          let purpose := pyStrip (r.purpose.getD "")
          some ⟨eid, path, name, address, category, date, sc, purpose⟩

/-- Bool test: does a `restaurants` row with this primary key exist? -/
def restKeyMem (s : Store) (eid p : String) : Bool :=
  s.restaurants.any fun row => row.establishment_id == eid && row.path == p

/-- The `INSERT ... ON DUPLICATE KEY UPDATE` of src/api_scraper.py lines
151-154: insert a fresh `restaurants` row when the key is absent, otherwise
overwrite `name`, `address`, `category` of the existing row. -/
def upsertRestaurant (s : Store) (n : NormRec) : Store :=
  if restKeyMem s n.establishment_id n.path then
    { s with restaurants := s.restaurants.map fun row =>
        if row.establishment_id == n.establishment_id && row.path == n.path then
          { row with name := n.name, address := n.address, category := n.category }
        else row }
  else
    { s with restaurants :=
        s.restaurants ++ [⟨n.establishment_id, n.path, n.name, n.address, n.category⟩] }

/-- The `SELECT id FROM inspections WHERE ...` novelty probe of
src/api_scraper.py lines 157-160: an event row matching the natural key
`(establishment_id, establishment_path, inspection_date, score)` exists. -/
def eventExists (s : Store) (n : NormRec) : Bool :=
  s.inspections.any fun row =>
    row.establishment_id == n.establishment_id && row.establishment_path == n.path &&
      row.inspection_date == n.date && row.score == n.score

/-- The novelty-insert of src/api_scraper.py lines 156-170: if a row with the
natural key exists return the store unchanged and `false`; otherwise insert
the event row and return `true`. -/
def insertEventIfNew (s : Store) (n : NormRec) : Store × Bool :=
  if eventExists s n then (s, false)
  else ({ s with inspections :=
            s.inspections ++ [⟨n.establishment_id, n.path, n.date, n.score, n.purpose⟩] },
        true)

/-- Minimal projection appended to `all_newly_added_inspections`
(src/api_scraper.py lines 172-176). -/
structure NewItem where
  name : String
  score : Int
  date : String
  deriving Repr, DecidableEq

/-- One iteration of the per-record loop of `ApiScraper.run`: normalize
(dropping rejects), upsert the restaurant, probe-and-insert the inspection,
and report the newly-added projection when the insert happened. -/
def processRecord (path : String) (s : Store) (r : RawRecord) : Store × Option NewItem :=
  match normalizeRecord path r with
  | none => (s, none)
  | some n =>
    let s1 := upsertRestaurant s n
    let (s2, isNew) := insertEventIfNew s1 n
    if isNew then (s2, some ⟨n.name, n.score, n.date⟩) else (s2, none)

/-- The per-record loop over one source's fetched batch (src/api_scraper.py
lines 126-176), collecting the newly added projections in order. -/
def processBatch (path : String) (rs : List RawRecord) (s : Store) : Store × List NewItem :=
  match rs with
  | [] => (s, [])
  | r :: rest =>
    let (s1, item) := processRecord path s r
    let (s2, items) := processBatch path rest s1
    (s2, item.toList ++ items)

/-- A transport-level failure: the exceptions caught at src/api_scraper.py
line 94 (`curl_requests.errors.RequestsError` — timeout or bad HTTP status —
and `ValueError` from an undecodable JSON body). -/
structure TransportErr where
  msg : String
  deriving Repr, DecidableEq

/-- JSON value decoded from the provider's response, as far as the scraper
inspects it: a list of raw records, or any other value of which only the
Python truthiness matters (`if not results`, `isinstance(api_results, list)`). -/
inductive PyJson where
  | list (rs : List RawRecord)
  | other (truthy : Bool)
  deriving Repr, DecidableEq

/-- Python falsiness of a decoded response: an empty list, or a non-list
value whose truthiness flag is off (e.g. `None`, `{}`, `""`). -/
def PyJson.falsy : PyJson → Bool
  | .list rs => rs.isEmpty
  | .other t => !t

/-- Fetch oracle for one source path: given the `programName` carried by the
request payload (the only field `_get_recent_inspections_for_path` varies),
the composite `session.post` + `raise_for_status` + `response.json()` either
raises a transport error or yields a decoded value. -/
def FetchOracle := String → Except TransportErr PyJson

/-- Embedding of `ApiScraper._get_recent_inspections_for_path`
(src/api_scraper.py lines 55-96). Returns the decoded result (the Python
`[]` on a caught transport error) together with the trace of `programName`
values of the requests actually issued, in order: a first request with the
empty program name, and — only when its result is falsy — exactly one retry
with `programName = "Food"`, whose result is returned as-is. -/
def getRecentInspectionsForPath (fetch : FetchOracle) : PyJson × List String :=
  match fetch "" with
  | .error _ => (.list [], [""])
  | .ok results =>
    if results.falsy then
      match fetch "Food" with
      | .error _ => (.list [], ["", "Food"])
      | .ok results2 => (results2, ["", "Food"])
    else (results, [""])

/-- Per-path fetch oracle for a whole run: source path → programName →
transport result. -/
def RunFetch := String → FetchOracle

/-- The per-source loop of `ApiScraper.run` (src/api_scraper.py lines
107-181) over an explicit list of discovered paths: fetch the source's
window; skip the source when the result is not a list or is empty; otherwise
process the batch against the store and accumulate the newly added
projections. Returns the final store and the accumulated list. -/
def runScraperFrom (fetch : RunFetch) : List String → Store → Store × List NewItem
  | [], s => (s, [])
  | p :: rest, s =>
    match (getRecentInspectionsForPath (fetch p)).1 with
    | .list rs =>
      if rs.isEmpty then runScraperFrom fetch rest s
      else
        let (s1, items) := processBatch p rs s
        let (s2, items2) := runScraperFrom fetch rest s1
        (s2, items ++ items2)
    | .other _ => runScraperFrom fetch rest s

/-- A store-level failure: a `mysql.connector` transaction/connection error
raised inside the `with get_db_connection()` block of `ApiScraper.run`. The
Python source has no handler for it. -/
structure StoreErr where
  path : String
  deriving Repr, DecidableEq

/-- Embedding of `ApiScraper.run` with a fallible store: `storeFault p`
models the database layer raising a connection/transaction error when the
batch for source `p` is processed (after the non-empty check, inside the
`with get_db_connection()` block). The Python code has no `try`/`except`
around that block, so the exception propagates out of the `for` loop and out
of `run()`: the run aborts with the error, the batch's writes are never
committed (`conn.commit()` at line 178 is not reached), and later sources
are not processed. -/
def runScraperExc (fetch : RunFetch) (storeFault : String → Bool) :
    List String → Store → Except StoreErr (Store × List NewItem)
  | [], s => .ok (s, [])
  | p :: rest, s =>
    match (getRecentInspectionsForPath (fetch p)).1 with
    | .list rs =>
      if rs.isEmpty then runScraperExc fetch storeFault rest s
      else if storeFault p then .error ⟨p⟩
      else
        let (s1, items) := processBatch p rs s
        match runScraperExc fetch storeFault rest s1 with
        | .error e => .error e
        | .ok (s2, items2) => .ok (s2, items ++ items2)
    | .other _ => runScraperExc fetch storeFault rest s

/-- One of the exceptions caught by `ApiScraper._discover_paths`
(src/api_scraper.py line 51): a network/HTTP error, an `AttributeError` from
unexpected page structure, or a `json.JSONDecodeError` from unexpected
content. -/
inductive DiscErr where
  | requestsError (msg : String)
  | attributeError
  | jsonDecodeError
  deriving Repr, DecidableEq

/-- An anchor element matched by the `div.jurisdiction-section
a.search-button` selector; `href` is its (possibly absent) href attribute. -/
structure LocationLink where
  href : Option String
  deriving Repr, DecidableEq

/-- The fixed fallback list of known-good source identifiers
(src/api_scraper.py lines 38 and 53). -/
def fallbackPaths : List String := ["tennessee", "alabama", "arizona", "florida"]

/-- Python `href.strip('/')` (src/api_scraper.py line 44): remove leading
and trailing `/` characters. -/
def stripSlashes (s : String) : String :=
  String.mk (((s.data.dropWhile (· == '/')).reverse.dropWhile (· == '/')).reverse)

/-- Embedding of `ApiScraper._discover_paths` (src/api_scraper.py lines
22-53). The oracle `page` is the composite fetch + parse + CSS select: a
caught error, or the list of matched anchors. On a caught error, or when no
anchors match, the fixed fallback list is returned; otherwise each href that
starts with `/` is stripped of slashes, paths containing `test` or `staging`
are excluded, and the rest are collected as a set (modelled as a list
deduplicated in first-seen order). -/
def discoverPaths (page : Except DiscErr (List LocationLink)) : List String :=
  match page with
  | .error _ => fallbackPaths
  | .ok links =>
    if links.isEmpty then fallbackPaths
    else
      links.foldl (fun acc link =>
        match link.href with
        | none => acc
        | some h =>
          if pyStartsWith h "/" then
            let p := stripSlashes h
            if !pyContains p "test" && !pyContains p "staging" then
              if acc.contains p then acc else acc ++ [p]
            else acc
          else acc) []

/-- Embedding of `ApiScraper.run` end to end (src/api_scraper.py lines
98-181): discover the paths, then run the per-source loop. -/
def runScraper (page : Except DiscErr (List LocationLink)) (fetch : RunFetch)
    (s : Store) : Store × List NewItem :=
  runScraperFrom fetch (discoverPaths page) s

/-! ## Helper lemmas about the store operations -/

theorem any_map_of_eq {α : Type} (l : List α) (f : α → α) (p : α → Bool)
    (h : ∀ x, p (f x) = p x) : (l.map f).any p = l.any p := by
  induction l with
  | nil => rfl
  | cons a t ih => simp [h, ih]

theorem upsertRestaurant_inspections (s : Store) (n : NormRec) :
    (upsertRestaurant s n).inspections = s.inspections := by
  unfold upsertRestaurant
  split <;> rfl

theorem eventExists_upsertRestaurant (s : Store) (n m : NormRec) :
    eventExists (upsertRestaurant s n) m = eventExists s m := by
  simp [eventExists, upsertRestaurant_inspections]

theorem restKeyMem_upsertRestaurant_update (s : Store) (n : NormRec) (e q : String)
    (h : restKeyMem s n.establishment_id n.path = true) :
    restKeyMem (upsertRestaurant s n) e q = restKeyMem s e q := by
  unfold upsertRestaurant
  rw [if_pos h]
  show restKeyMem ⟨_, s.inspections⟩ e q = restKeyMem s e q
  unfold restKeyMem
  apply any_map_of_eq
  intro row
  split <;> rfl

theorem upsertRestaurant_length_update (s : Store) (n : NormRec)
    (h : restKeyMem s n.establishment_id n.path = true) :
    (upsertRestaurant s n).restaurants.length = s.restaurants.length := by
  unfold upsertRestaurant
  rw [if_pos h]
  simp

theorem restKeyMem_upsertRestaurant_mono (s : Store) (n : NormRec) (e q : String)
    (h : restKeyMem s e q = true) :
    restKeyMem (upsertRestaurant s n) e q = true := by
  by_cases hk : restKeyMem s n.establishment_id n.path = true
  · rw [restKeyMem_upsertRestaurant_update s n e q hk]; exact h
  · unfold upsertRestaurant
    rw [if_neg hk]
    unfold restKeyMem at h ⊢
    simp only [List.any_append, Bool.or_eq_true]
    exact Or.inl h

theorem restKeyMem_upsertRestaurant_self (s : Store) (n : NormRec) :
    restKeyMem (upsertRestaurant s n) n.establishment_id n.path = true := by
  by_cases hk : restKeyMem s n.establishment_id n.path = true
  · rw [restKeyMem_upsertRestaurant_update s n _ _ hk]; exact hk
  · unfold upsertRestaurant
    rw [if_neg hk]
    unfold restKeyMem
    simp

theorem insertEventIfNew_restaurants (s : Store) (n : NormRec) :
    (insertEventIfNew s n).1.restaurants = s.restaurants := by
  unfold insertEventIfNew
  split <;> rfl

theorem restKeyMem_insertEventIfNew (s : Store) (n : NormRec) (e q : String) :
    restKeyMem (insertEventIfNew s n).1 e q = restKeyMem s e q := by
  simp [restKeyMem, insertEventIfNew_restaurants]

theorem insertEventIfNew_of_exists (s : Store) (n : NormRec)
    (h : eventExists s n = true) : insertEventIfNew s n = (s, false) := by
  unfold insertEventIfNew
  rw [if_pos h]

theorem eventExists_insertEventIfNew_mono (s : Store) (n m : NormRec)
    (h : eventExists s m = true) : eventExists (insertEventIfNew s n).1 m = true := by
  unfold insertEventIfNew
  split
  · exact h
  · unfold eventExists at h ⊢
    simp only [List.any_append, Bool.or_eq_true]
    exact Or.inl h

theorem eventExists_key_only (s : Store) (n m : NormRec)
    (he : n.establishment_id = m.establishment_id) (hp : n.path = m.path)
    (hd : n.date = m.date) (hs : n.score = m.score) :
    eventExists s n = eventExists s m := by
  unfold eventExists
  rw [he, hp, hd, hs]

theorem eventExists_insertEventIfNew_self (s : Store) (n : NormRec) :
    eventExists (insertEventIfNew s n).1 n = true := by
  unfold insertEventIfNew
  split
  · assumption
  · unfold eventExists
    simp

/-! ## Characterization of the per-record and per-batch loops -/

theorem processRecord_eq (path : String) (s : Store) (r : RawRecord) :
    processRecord path s r =
      match normalizeRecord path r with
      | none => (s, none)
      | some n =>
        ((insertEventIfNew (upsertRestaurant s n) n).1,
         if (insertEventIfNew (upsertRestaurant s n) n).2 then
           some ⟨n.name, n.score, n.date⟩
         else none) := by
  unfold processRecord
  cases hn : normalizeRecord path r with
  | none => rfl
  | some n =>
    rcases h : insertEventIfNew (upsertRestaurant s n) n with ⟨s2, b⟩
    simp only [h]
    cases b <;> rfl

theorem processBatch_cons (path : String) (r : RawRecord) (rest : List RawRecord) (s : Store) :
    processBatch path (r :: rest) s =
      ((processBatch path rest (processRecord path s r).1).1,
       (processRecord path s r).2.toList ++ (processBatch path rest (processRecord path s r).1).2) := by
  conv_lhs => rw [processBatch]

/-! ## Invariants used for idempotence -/

/-- The store can only grow: every event natural key and every restaurant
primary key present in `s` is still present in `t`. -/
def growsTo (s t : Store) : Prop :=
  (∀ m : NormRec, eventExists s m = true → eventExists t m = true) ∧
  (∀ e q : String, restKeyMem s e q = true → restKeyMem t e q = true)

theorem growsTo_refl (s : Store) : growsTo s s := ⟨fun _ h => h, fun _ _ h => h⟩

theorem growsTo_trans {s t u : Store} (h1 : growsTo s t) (h2 : growsTo t u) : growsTo s u :=
  ⟨fun m hm => h2.1 m (h1.1 m hm), fun e q hq => h2.2 e q (h1.2 e q hq)⟩

/-- The store already contains everything that processing raw record `r`
from source `path` could add: the normalized record's event key and
restaurant key are both present. (Vacuously true for rejected records.) -/
def coveredRec (s : Store) (path : String) (r : RawRecord) : Prop :=
  ∀ n : NormRec, normalizeRecord path r = some n →
    eventExists s n = true ∧ restKeyMem s n.establishment_id n.path = true

/-- Everything a whole batch could add is already present. -/
def coveredBatch (s : Store) (path : String) (rs : List RawRecord) : Prop :=
  ∀ r ∈ rs, coveredRec s path r

/-- Processing one record against a store that already covers it changes
no row counts, no event rows, no restaurant keys, and reports nothing new. -/
def sameShape (s t : Store) : Prop :=
  t.inspections = s.inspections ∧
  t.restaurants.length = s.restaurants.length ∧
  ∀ e q : String, restKeyMem t e q = restKeyMem s e q

theorem sameShape_refl (s : Store) : sameShape s s := ⟨rfl, rfl, fun _ _ => rfl⟩

theorem sameShape_trans {s t u : Store} (h1 : sameShape s t) (h2 : sameShape t u) :
    sameShape s u :=
  ⟨h2.1.trans h1.1, h2.2.1.trans h1.2.1, fun e q => (h2.2.2 e q).trans (h1.2.2 e q)⟩

theorem eventExists_of_sameShape {s t : Store} (h : sameShape s t) (m : NormRec) :
    eventExists t m = eventExists s m := by
  unfold eventExists
  rw [h.1]

theorem coveredRec_of_growsTo {s t : Store} {path : String} {r : RawRecord}
    (hg : growsTo s t) (hc : coveredRec s path r) : coveredRec t path r := by
  intro n hn
  exact ⟨hg.1 n (hc n hn).1, hg.2 _ _ (hc n hn).2⟩

theorem growsTo_of_sameShape {s t : Store} (h : sameShape s t) : growsTo s t :=
  ⟨fun m hm => by rw [eventExists_of_sameShape h]; exact hm,
   fun e q hq => by rw [h.2.2]; exact hq⟩

theorem processRecord_growsTo (path : String) (s : Store) (r : RawRecord) :
    growsTo s (processRecord path s r).1 := by
  rw [processRecord_eq]
  cases hn : normalizeRecord path r with
  | none => exact growsTo_refl s
  | some n =>
    constructor
    · intro m hm
      exact eventExists_insertEventIfNew_mono _ n m
        (by rw [eventExists_upsertRestaurant]; exact hm)
    · intro e q hq
      rw [restKeyMem_insertEventIfNew]
      exact restKeyMem_upsertRestaurant_mono s n e q hq

theorem processRecord_covers (path : String) (s : Store) (r : RawRecord) :
    coveredRec (processRecord path s r).1 path r := by
  rw [processRecord_eq]
  intro n hn
  rw [hn]
  constructor
  · exact eventExists_insertEventIfNew_self _ n
  · rw [restKeyMem_insertEventIfNew]
    exact restKeyMem_upsertRestaurant_self s n

theorem processRecord_stable (path : String) (s : Store) (r : RawRecord)
    (hc : coveredRec s path r) :
    (processRecord path s r).2 = none ∧ sameShape s (processRecord path s r).1 := by
  rw [processRecord_eq]
  cases hn : normalizeRecord path r with
  | none => exact ⟨rfl, sameShape_refl s⟩
  | some n =>
    obtain ⟨hev, hrk⟩ := hc n hn
    have hev1 : eventExists (upsertRestaurant s n) n = true := by
      rw [eventExists_upsertRestaurant]; exact hev
    dsimp only
    rw [insertEventIfNew_of_exists _ n hev1]
    refine ⟨rfl, ?_, ?_, ?_⟩
    · exact upsertRestaurant_inspections s n
    · exact upsertRestaurant_length_update s n hrk
    · intro e q
      exact restKeyMem_upsertRestaurant_update s n e q hrk

theorem coveredBatch_of_growsTo {s t : Store} {path : String} {rs : List RawRecord}
    (hg : growsTo s t) (hc : coveredBatch s path rs) : coveredBatch t path rs :=
  fun r hr => coveredRec_of_growsTo hg (hc r hr)

theorem processBatch_growsTo (path : String) (rs : List RawRecord) (s : Store) :
    growsTo s (processBatch path rs s).1 := by
  induction rs generalizing s with
  | nil => exact growsTo_refl s
  | cons r rest ih =>
    rw [processBatch_cons]
    exact growsTo_trans (processRecord_growsTo path s r) (ih _)

theorem processBatch_covers (path : String) (rs : List RawRecord) (s : Store) :
    coveredBatch (processBatch path rs s).1 path rs := by
  induction rs generalizing s with
  | nil => intro r hr; cases hr
  | cons r rest ih =>
    rw [processBatch_cons]
    intro r' hr'
    rcases List.mem_cons.mp hr' with h | h
    · subst h
      exact coveredRec_of_growsTo (processBatch_growsTo path rest _)
        (processRecord_covers path s r')
    · exact ih _ r' h

theorem processBatch_stable (path : String) (rs : List RawRecord) (s : Store)
    (hc : coveredBatch s path rs) :
    (processBatch path rs s).2 = [] ∧ sameShape s (processBatch path rs s).1 := by
  induction rs generalizing s with
  | nil => exact ⟨rfl, sameShape_refl s⟩
  | cons r rest ih =>
    rw [processBatch_cons]
    obtain ⟨hitem, hshape⟩ := processRecord_stable path s r (hc r (List.mem_cons_self r rest))
    have hc1 : coveredBatch (processRecord path s r).1 path rest :=
      coveredBatch_of_growsTo (growsTo_of_sameShape hshape)
        (fun r' hr' => hc r' (List.mem_cons_of_mem r hr'))
    obtain ⟨hrest, hshape2⟩ := ih _ hc1
    refine ⟨?_, sameShape_trans hshape hshape2⟩
    rw [hitem, hrest]
    rfl

/-- The batch of raw records that `ApiScraper.run` iterates over for source
`p`: the fetched list, or nothing when the response is not a list. -/
def batchOf (fetch : RunFetch) (p : String) : List RawRecord :=
  match (getRecentInspectionsForPath (fetch p)).1 with
  | .list rs => rs
  | .other _ => []

theorem runScraperFrom_cons (fetch : RunFetch) (p : String) (rest : List String) (s : Store) :
    runScraperFrom fetch (p :: rest) s =
      ((runScraperFrom fetch rest (processBatch p (batchOf fetch p) s).1).1,
       (processBatch p (batchOf fetch p) s).2 ++
         (runScraperFrom fetch rest (processBatch p (batchOf fetch p) s).1).2) := by
  rw [runScraperFrom]
  cases h : (getRecentInspectionsForPath (fetch p)).1 with
  | list rs =>
    cases rs with
    | nil => simp [batchOf, h, processBatch]
    | cons a t =>
      simp only [batchOf, h, List.isEmpty_cons, if_neg]
      rcases h1 : processBatch p (a :: t) s with ⟨s1, items⟩
      rcases h2 : runScraperFrom fetch rest s1 with ⟨s2, items2⟩
      simp [h1, h2]
  | other b => simp [batchOf, h, processBatch]

theorem runScraperFrom_growsTo (fetch : RunFetch) (paths : List String) (s : Store) :
    growsTo s (runScraperFrom fetch paths s).1 := by
  induction paths generalizing s with
  | nil => exact growsTo_refl s
  | cons p rest ih =>
    rw [runScraperFrom_cons]
    exact growsTo_trans (processBatch_growsTo p (batchOf fetch p) s) (ih _)

theorem runScraperFrom_covers (fetch : RunFetch) (paths : List String) (s : Store) :
    ∀ p ∈ paths, coveredBatch (runScraperFrom fetch paths s).1 p (batchOf fetch p) := by
  induction paths generalizing s with
  | nil => intro p hp; cases hp
  | cons q rest ih =>
    rw [runScraperFrom_cons]
    intro p hp
    rcases List.mem_cons.mp hp with h | h
    · subst h
      exact coveredBatch_of_growsTo (runScraperFrom_growsTo fetch rest _)
        (processBatch_covers p (batchOf fetch p) s)
    · exact ih _ p h

theorem runScraperFrom_stable (fetch : RunFetch) (paths : List String) (s : Store)
    (hc : ∀ p ∈ paths, coveredBatch s p (batchOf fetch p)) :
    (runScraperFrom fetch paths s).2 = [] ∧ sameShape s (runScraperFrom fetch paths s).1 := by
  induction paths generalizing s with
  | nil => exact ⟨rfl, sameShape_refl s⟩
  | cons q rest ih =>
    rw [runScraperFrom_cons]
    obtain ⟨hitems, hshape⟩ :=
      processBatch_stable q (batchOf fetch q) s (hc q (List.mem_cons_self q rest))
    have hc1 : ∀ p ∈ rest, coveredBatch (processBatch q (batchOf fetch q) s).1 p (batchOf fetch p) :=
      fun p hp => coveredBatch_of_growsTo (growsTo_of_sameShape hshape)
        (hc p (List.mem_cons_of_mem q hp))
    obtain ⟨hrest, hshape2⟩ := ih _ hc1
    refine ⟨?_, sameShape_trans hshape hshape2⟩
    rw [hitems, hrest]
    rfl

/-! ## Claim theorems -/

/-- C1: running the harvest twice in succession against the same provider
data (the same discovery page and the same per-path fetch responses) yields
an empty newly-added list on the second run, and the row counts of both the
`restaurants` and the `inspections` table after the second run equal those
after the first run. -/
theorem harvest_idempotent (page : Except DiscErr (List LocationLink)) (fetch : RunFetch)
    (s0 : Store) :
    (runScraper page fetch (runScraper page fetch s0).1).2 = [] ∧
    (runScraper page fetch (runScraper page fetch s0).1).1.restaurants.length =
      (runScraper page fetch s0).1.restaurants.length ∧
    (runScraper page fetch (runScraper page fetch s0).1).1.inspections.length =
      (runScraper page fetch s0).1.inspections.length := by
  unfold runScraper
  have hcov := runScraperFrom_covers fetch (discoverPaths page) s0
  obtain ⟨h1, hsh⟩ :=
    runScraperFrom_stable fetch (discoverPaths page)
      (runScraperFrom fetch (discoverPaths page) s0).1 hcov
  exact ⟨h1, hsh.2.1, by rw [hsh.1]⟩

/-- C3: a transport-level failure of the first fetch attempt for one source
makes that source contribute nothing to the run: the run over any path list
containing the failing source equals the run with that source removed, so
the remaining sources' new records are returned unchanged. -/
theorem fetch_failure_isolated (fetch : RunFetch) (pre post : List String) (pf : String)
    (s : Store) (e : TransportErr) (h : fetch pf "" = .error e) :
    runScraperFrom fetch (pre ++ pf :: post) s = runScraperFrom fetch (pre ++ post) s := by
  induction pre generalizing s with
  | nil =>
    show runScraperFrom fetch (pf :: post) s = runScraperFrom fetch post s
    rw [runScraperFrom_cons]
    have hb : batchOf fetch pf = [] := by
      unfold batchOf getRecentInspectionsForPath
      rw [h]
    rw [hb]
    show ((runScraperFrom fetch post s).1, [] ++ (runScraperFrom fetch post s).2) = _
    simp
  | cons q pre' ih =>
    show runScraperFrom fetch (q :: (pre' ++ pf :: post)) s =
      runScraperFrom fetch (q :: (pre' ++ post)) s
    rw [runScraperFrom_cons, runScraperFrom_cons, ih]

/-- C4: for two normalized events sharing the natural key
`(establishment_id, source path, date, score)` against a store not yet
holding that key, the first `insertEventIfNew` returns `true` and adds
exactly one `inspections` row, and the second returns `false` and leaves the
store untouched — a duplicate insert of an identical tuple is a no-op. -/
theorem natural_key_unique (s : Store) (n1 n2 : NormRec)
    (he : n1.establishment_id = n2.establishment_id) (hp : n1.path = n2.path)
    (hd : n1.date = n2.date) (hs : n1.score = n2.score)
    (hnew : eventExists s n1 = false) :
    (insertEventIfNew s n1).2 = true ∧
    (insertEventIfNew s n1).1.inspections.length = s.inspections.length + 1 ∧
    insertEventIfNew (insertEventIfNew s n1).1 n2 = ((insertEventIfNew s n1).1, false) := by
  have hex : eventExists (insertEventIfNew s n1).1 n2 = true := by
    rw [← eventExists_key_only _ n1 n2 he hp hd hs]
    exact eventExists_insertEventIfNew_self s n1
  refine ⟨?_, ?_, insertEventIfNew_of_exists _ n2 hex⟩
  · unfold insertEventIfNew
    rw [if_neg (by rw [hnew]; exact Bool.false_ne_true)]
  · unfold insertEventIfNew
    rw [if_neg (by rw [hnew]; exact Bool.false_ne_true)]
    simp

/-- Concrete fixture: Joe's Deli raw record from the spec's scenario. -/
def rawJoe : RawRecord :=
  ⟨some "42", some " Joe's Deli ", some "1 Main St", some (.listv ["Food"]),
   some "2024-03-01T00:00:00", some 91, some "Routine"⟩

/-- Normalized form of `rawJoe` for source path `tennessee`. -/
def normJoe : NormRec :=
  ⟨"42", "tennessee", "Joe's Deli", "1 Main St", "Food", "2024-03-01", 91, "Routine"⟩

/-- C4 witness: inserting the Joe's Deli event into the empty store returns
`true` and one row; re-inserting the identical tuple returns `false` and
changes nothing. -/
theorem natural_key_unique_witness :
    (insertEventIfNew emptyStore normJoe).2 = true ∧
    (insertEventIfNew emptyStore normJoe).1.inspections.length =
      emptyStore.inspections.length + 1 ∧
    insertEventIfNew (insertEventIfNew emptyStore normJoe).1 normJoe =
      ((insertEventIfNew emptyStore normJoe).1, false) :=
  natural_key_unique emptyStore normJoe normJoe rfl rfl rfl rfl (by decide)

/-- Helper: the normalization pipeline succeeds exactly with the cleaned
fields when the id is present and non-empty and the score is present and
non-zero. -/
theorem normalizeRecord_some (path : String) (r : RawRecord) (eid : String) (sc : Int)
    (hpid : r.permitID = some eid) (hne : eid ≠ "") (hsc : r.score = some sc) (h0 : sc ≠ 0) :
    normalizeRecord path r = some ⟨eid, path,
      pyStrip (r.establishmentName.getD "N/A"), pyStrip (r.addressLine1.getD ""),
      flattenCategory r.permitType, pySplitHeadT (r.inspectionDate.getD ""), sc,
      pyStrip (r.purpose.getD "")⟩ := by
  unfold normalizeRecord
  rw [hpid]
  dsimp only
  rw [if_neg hne, hsc]
  dsimp only
  rw [if_neg h0]

/-- Helper: a record whose score is absent or zero is rejected by the
normalization pipeline. -/
theorem normalizeRecord_none_of_score (path : String) (r : RawRecord)
    (hsc : r.score = none ∨ r.score = some 0) : normalizeRecord path r = none := by
  unfold normalizeRecord
  cases hpid : r.permitID with
  | none => rfl
  | some eid =>
    dsimp only
    by_cases he : eid = ""
    · rw [if_pos he]
    · rw [if_neg he]
      rcases hsc with h | h <;> rw [h]
      rfl

/-- C5: a raw record whose score is absent or exactly zero is dropped before
any store operation — `processRecord` returns the store unchanged with no
new item — while a record with score 1 and a valid (present, non-empty) id
passes normalization and therefore reaches the store operations. -/
theorem score_rejection_filter (path : String) (s : Store) (r : RawRecord) :
    ((r.score = none ∨ r.score = some 0) → processRecord path s r = (s, none)) ∧
    (∀ eid, r.permitID = some eid → eid ≠ "" → r.score = some 1 →
      ∃ n, normalizeRecord path r = some n ∧ n.score = 1) := by
  constructor
  · intro hsc
    unfold processRecord
    rw [normalizeRecord_none_of_score path r hsc]
  · intro eid hpid hne hsc
    exact ⟨_, normalizeRecord_some path r eid 1 hpid hne hsc (by decide), rfl⟩

/-- Fixture for C5: a record with absent score. -/
def rawNoScore : RawRecord :=
  ⟨some "77", some "NoScore", some "", some (.strv "Food"), some "2024-01-01T00:00:00",
   none, none⟩

/-- Fixture for C5: a record with score exactly zero. -/
def rawZeroScore : RawRecord :=
  ⟨some "77", some "NoScore", some "", some (.strv "Food"), some "2024-01-01T00:00:00",
   some 0, none⟩

/-- Fixture for C5: a record with score 1 and a valid id. -/
def rawOneScore : RawRecord :=
  ⟨some "78", some "OneScore", some "", some (.strv "Food"), some "2024-01-01T00:00:00",
   some 1, none⟩

/-- C5 witness: the three fixtures behave exactly as the filter says. -/
theorem score_rejection_filter_witness :
    processRecord "p" emptyStore rawNoScore = (emptyStore, none) ∧
    processRecord "p" emptyStore rawZeroScore = (emptyStore, none) ∧
    ∃ n, normalizeRecord "p" rawOneScore = some n ∧ n.score = 1 :=
  ⟨(score_rejection_filter "p" emptyStore rawNoScore).1 (Or.inl rfl),
   (score_rejection_filter "p" emptyStore rawZeroScore).1 (Or.inr rfl),
   (score_rejection_filter "p" emptyStore rawOneScore).2 "78" rfl (by decide) rfl⟩

/-- Store contents after inserting Joe's Deli into the empty store. -/
def joeStore : Store :=
  ⟨[⟨"42", "tennessee", "Joe's Deli", "1 Main St", "Food"⟩],
   [⟨"42", "tennessee", "2024-03-01", 91, "Routine"⟩]⟩

/-- C6: the spec's end-to-end scenario. Normalizing the raw Joe's Deli
record yields exactly the expected canonical record; inserting it into the
empty store reports it as newly added (with the minimal projection), and a
second identical insert reports not-new and leaves the store unchanged. -/
theorem scenario_joes_deli :
    normalizeRecord "tennessee" rawJoe = some normJoe ∧
    processRecord "tennessee" emptyStore rawJoe =
      (joeStore, some ⟨"Joe's Deli", 91, "2024-03-01"⟩) ∧
    processRecord "tennessee" joeStore rawJoe = (joeStore, none) := by decide

/-- C7: when the first request (empty program name) yields a non-falsy
response, no retry is issued and that response is returned; when it yields
a falsy response, exactly one retry with `programName = "Food"` is issued
and the retry's response is returned as-is. The second component lists the
program names of the requests actually sent, in order. -/
theorem fetch_retry_once (fetch : FetchOracle) (r : PyJson) (h1 : fetch "" = .ok r) :
    (r.falsy = false → getRecentInspectionsForPath fetch = (r, [""])) ∧
    (∀ r2, r.falsy = true → fetch "Food" = .ok r2 →
      getRecentInspectionsForPath fetch = (r2, ["", "Food"])) := by
  constructor
  · intro hf
    unfold getRecentInspectionsForPath
    rw [h1]
    dsimp only
    rw [hf]
    rfl
  · intro r2 hf h2
    unfold getRecentInspectionsForPath
    rw [h1]
    dsimp only
    rw [hf, h2]
    rfl

/-- Fixture for C7: the default query comes back empty, the Food-program
variant has data. -/
def fetchRetryFood : FetchOracle := fun pn =>
  if pn = "" then .ok (.list []) else .ok (.list [rawJoe])

/-- Fixture for C7: the default query already has data. -/
def fetchFirstNonEmpty : FetchOracle := fun _ => .ok (.list [rawJoe])

/-- C7 witness: one concrete oracle per arm of the retry behaviour. -/
theorem fetch_retry_once_witness :
    getRecentInspectionsForPath fetchRetryFood = (.list [rawJoe], ["", "Food"]) ∧
    getRecentInspectionsForPath fetchFirstNonEmpty = (.list [rawJoe], [""]) :=
  ⟨(fetch_retry_once fetchRetryFood (.list []) rfl).2 (.list [rawJoe]) rfl rfl,
   (fetch_retry_once fetchFirstNonEmpty (.list [rawJoe]) rfl).1 rfl⟩

/-- C8: whenever the directory page fetch or parse fails with any of the
caught error classes, discovery returns the fixed fallback list of
known-good identifiers — which is not empty — and no failure is surfaced. -/
theorem discover_fallback (e : DiscErr) :
    discoverPaths (.error e) = fallbackPaths ∧ fallbackPaths ≠ [] :=
  ⟨rfl, by decide⟩

/-- Fixtures for C3: three distinct new Tennessee records. -/
def rawT1 : RawRecord :=
  ⟨some "t1", some "Cafe One", some "1 A St", some (.strv "Food"), some "2024-03-02T00:00:00",
   some 95, some "Routine"⟩

/-- Second C3 fixture record. -/
def rawT2 : RawRecord :=
  ⟨some "t2", some "Cafe Two", some "2 A St", some (.strv "Food"), some "2024-03-02T00:00:00",
   some 85, some "Routine"⟩

/-- Third C3 fixture record. -/
def rawT3 : RawRecord :=
  ⟨some "t3", some "Cafe Three", some "3 A St", some (.strv "Food"), some "2024-03-03T00:00:00",
   some 75, some "Complaint"⟩

/-- C3 fixture oracle: the alabama fetch raises a transport failure, the
tennessee fetch succeeds with three records. -/
def fetchC3 : RunFetch := fun p _ =>
  if p = "alabama" then .error ⟨"timeout"⟩ else .ok (.list [rawT1, rawT2, rawT3])

/-- C3 witness: with alabama failing and tennessee succeeding, the
two-source run equals the tennessee-only run, which returns exactly its
three new records. -/
theorem fetch_failure_isolated_witness :
    runScraperFrom fetchC3 ["alabama", "tennessee"] emptyStore =
      runScraperFrom fetchC3 ["tennessee"] emptyStore ∧
    (runScraperFrom fetchC3 ["tennessee"] emptyStore).2.length = 3 :=
  ⟨fetch_failure_isolated fetchC3 [] ["tennessee"] "alabama" emptyStore ⟨"timeout"⟩ rfl,
   by decide⟩

/-- Fixture for C2: a new record for source a. -/
def rawA : RawRecord :=
  ⟨some "a1", some "Alpha", some "2 B St", some (.strv "Food"), some "2024-03-04T00:00:00",
   some 88, some "Routine"⟩

/-- Fixture for C2: a new record for source b. -/
def rawB : RawRecord :=
  ⟨some "b1", some "Beta", some "3 C St", some (.strv "Food"), some "2024-03-05T00:00:00",
   some 77, some "Routine"⟩

/-- Fixture oracle for C2: both sources fetch one valid record. -/
def fetchAB : RunFetch := fun p _ =>
  if p = "a" then .ok (.list [rawA]) else .ok (.list [rawB])

/-- Fault model for C2: the store raises while processing source a's batch. -/
def faultOnA : String → Bool := fun p => p == "a"

/-- C2 counterexample: when the store raises during source a's batch, the
run does not return a list at all — the exception escapes `run()` as
`.error` and source b is never processed — although the same run without the
fault would have returned b's new record (and a's) in the result list. This
refutes the claim that the orchestrator continues with the remaining
sources and returns a list. -/
theorem store_error_escapes_run :
    runScraperExc fetchAB faultOnA ["a", "b"] emptyStore = .error ⟨"a"⟩ ∧
    (runScraperExc fetchAB (fun _ => false) ["a", "b"] emptyStore).toOption.map Prod.snd =
      some [⟨"Alpha", 88, "2024-03-04"⟩, ⟨"Beta", 77, "2024-03-05"⟩] :=
  ⟨rfl, rfl⟩

/-- C2 amended: a store transaction/connection error raised while one
source's non-empty batch is being processed propagates out of `run()`: the
whole run aborts with that error (sources before the failing one are
processed, later sources are not, and no newly-added list is returned); the
failing batch is never committed. -/
theorem store_error_aborts_run (fetch : RunFetch) (storeFault : String → Bool)
    (pre post : List String) (p : String) (s : Store) (rs : List RawRecord)
    (hfault : storeFault p = true)
    (hbatch : (getRecentInspectionsForPath (fetch p)).1 = PyJson.list rs)
    (hne : rs ≠ [])
    (hpre : ∀ q ∈ pre, storeFault q = false) :
    runScraperExc fetch storeFault (pre ++ p :: post) s = .error ⟨p⟩ := by
  induction pre generalizing s with
  | nil =>
    show runScraperExc fetch storeFault (p :: post) s = .error ⟨p⟩
    rw [runScraperExc, hbatch]
    have hie : rs.isEmpty = false := by
      cases rs with
      | nil => exact absurd rfl hne
      | cons a t => rfl
    dsimp only
    rw [hie, hfault]
    rfl
  | cons q pre' ih =>
    have hq : storeFault q = false := hpre q (List.mem_cons_self q _)
    have hpre' : ∀ x ∈ pre', storeFault x = false :=
      fun x hx => hpre x (List.mem_cons_of_mem q hx)
    show runScraperExc fetch storeFault (q :: (pre' ++ p :: post)) s = .error ⟨p⟩
    rw [runScraperExc]
    cases hres : (getRecentInspectionsForPath (fetch q)).1 with
    | list rs' =>
      cases rs' with
      | nil => simpa using ih s hpre'
      | cons a t =>
        simp only [List.isEmpty_cons, Bool.false_eq_true, if_false, hq]
        rw [ih _ hpre']
    | other b => exact ih s hpre'

/-- C2 amended witness: the concrete two-source scenario aborts with the
store error of source a. -/
theorem store_error_aborts_run_witness :
    runScraperExc fetchAB faultOnA ["a", "b"] emptyStore = .error ⟨"a"⟩ :=
  store_error_aborts_run fetchAB faultOnA [] ["b"] "a" emptyStore [rawA] rfl rfl
    (by decide) (fun q hq => absurd hq (List.not_mem_nil q))

/-- Helper: the category of any successfully normalized record is exactly
the flattened `permitType` value. -/
theorem normalizeRecord_category (path : String) (r : RawRecord) (n : NormRec)
    (h : normalizeRecord path r = some n) : n.category = flattenCategory r.permitType := by
  unfold normalizeRecord at h
  cases hpid : r.permitID with
  | none => rw [hpid] at h; exact Option.noConfusion h
  | some eid =>
    rw [hpid] at h
    dsimp only at h
    by_cases he : eid = ""
    · rw [if_pos he] at h; exact Option.noConfusion h
    · rw [if_neg he] at h
      cases hsc : r.score with
      | none => rw [hsc] at h; exact Option.noConfusion h
      | some sc =>
        rw [hsc] at h
        dsimp only at h
        by_cases h0 : sc = 0
        · rw [if_pos h0] at h; exact Option.noConfusion h
        · rw [if_neg h0] at h
          injection h with h'
          rw [← h']

/-- Fixture for C9: a list-valued category whose single element carries
leading whitespace. -/
def rawCatX : RawRecord :=
  ⟨some "9", some "X", some "", some (.listv [" A"]), none, some 5, none⟩

/-- C9 counterexample: for the category list `[" A"]` the `", "`-joined
string is `" A"`, but the record normalizes to category `"A"` — the code
additionally strips the joined string, so a list-valued category does not in
general normalize to the joined string verbatim. -/
theorem category_join_not_verbatim :
    (normalizeRecord "p" rawCatX).map NormRec.category = some "A" ∧
    String.intercalate ", " [" A"] = " A" ∧ ("A" : String) ≠ " A" := by decide

/-- C9 amended: if the raw category field is a list of strings, it
normalizes to the `", "`-joined string stripped of leading and trailing
whitespace; if it is a single value, it normalizes to that value stringified
and stripped. -/
theorem category_flatten_trimmed (path : String) (r : RawRecord) (n : NormRec)
    (h : normalizeRecord path r = some n) :
    (∀ l, r.permitType = some (.listv l) →
      n.category = pyStrip (String.intercalate ", " l)) ∧
    (∀ v, r.permitType = some (.strv v) → n.category = pyStrip v) := by
  have hc := normalizeRecord_category path r n h
  constructor
  · intro l hl
    rw [hc, hl]
    rfl
  · intro v hv
    rw [hc, hv]
    rfl

/-- Fixture for C9's amended claim: a two-element category list with
whitespace at both ends. -/
def rawCatList : RawRecord :=
  ⟨some "8", some "Y", none, some (.listv [" A", "B "]), none, some 5, none⟩

/-- Normalized form of `rawCatList`. -/
def nCat : NormRec := ⟨"8", "p", "Y", "", "A, B", "", 5, ""⟩

/-- C9 amended witness: the fixture's category normalizes to the stripped
join of its list. -/
theorem category_flatten_trimmed_witness :
    nCat.category = pyStrip (String.intercalate ", " [" A", "B "]) :=
  (category_flatten_trimmed "p" rawCatList nCat (by decide)).1 [" A", "B "] rfl

/-- C10: a raw record with a valid id and a present non-zero score but no
`inspectionDate` field is not rejected: it normalizes with an empty date
string, and processing it performs the entity upsert and the event
insert-if-new with that empty date. -/
theorem missing_date_proceeds (path : String) (s : Store) (r : RawRecord) (eid : String)
    (sc : Int) (hpid : r.permitID = some eid) (hne : eid ≠ "") (hsc : r.score = some sc)
    (h0 : sc ≠ 0) (hdate : r.inspectionDate = none) :
    ∃ n, normalizeRecord path r = some n ∧ n.date = "" ∧
      (processRecord path s r).1 = (insertEventIfNew (upsertRestaurant s n) n).1 := by
  have h := normalizeRecord_some path r eid sc hpid hne hsc h0
  refine ⟨_, h, ?_, ?_⟩
  · rw [hdate]
    rfl
  · rw [processRecord_eq, h]

/-- Fixture for C10: a valid record with no inspectionDate field. -/
def rawNoDate : RawRecord :=
  ⟨some "55", some "NoDate Cafe", some "9 Z St", some (.strv "Food"), none, some 42,
   some "Routine"⟩

/-- C10 witness: the fixture without a date normalizes with an empty date
and still reaches both store operations. -/
theorem missing_date_proceeds_witness :
    ∃ n, normalizeRecord "p" rawNoDate = some n ∧ n.date = "" ∧
      (processRecord "p" emptyStore rawNoDate).1 =
        (insertEventIfNew (upsertRestaurant emptyStore n) n).1 :=
  missing_date_proceeds "p" emptyStore rawNoDate "55" 42 rfl (by decide) rfl (by decide) rfl
